import Mathlib

/-!
Verification development for the `chaiNNer_extra_nodes` plugin collection.

The main subject is the image overlay compositor
(`src/overlay_images/overlay_images.py`), together with the early-return
behaviour of `src/morphology/morphology.py` and the input validation of
`src/images_to_video/images_to_video.py`.

Images are modelled as rectangular grids of rational-valued samples
(`height × width × channels`), matching the normalized float buffers the
nodes operate on.  Python's `int()` / numpy's `.astype("int")` are modelled
as truncation toward zero, and Python's `round()` as round-half-to-even.
-/

namespace ChainnerExtra

/-- Python `int(q)` and numpy `.astype("int")`: truncation toward zero.
For a normalized rational `q` this is the truncated quotient of numerator
by denominator. -/
def truncQ (q : ℚ) : ℤ :=
  Int.tdiv q.num q.den

/-- Python `round(q)`: nearest integer, ties broken to the even integer. -/
def pythonRound (q : ℚ) : ℤ :=
  if q - ⌊q⌋ < 1/2 then ⌊q⌋
  else if 1/2 < q - ⌊q⌋ then ⌊q⌋ + 1
  else if 2 ∣ ⌊q⌋ then ⌊q⌋ else ⌊q⌋ + 1

/-- An in-memory image buffer: height, width, channel count, and sample
data indexed as `data y x c` (row, column, channel). -/
structure Image where
  height : ℕ
  width : ℕ
  channels : ℕ
  data : ℕ → ℕ → ℕ → ℚ

/-- Enumeration `OverlayPosition` from `overlay_images.py`: the eleven
placement modes. -/
inductive OverlayPosition where
  | TOP_LEFT
  | TOP_CENTERED
  | TOP_RIGHT
  | CENTERED_LEFT
  | CENTERED
  | CENTERED_RIGHT
  | BOTTOM_LEFT
  | BOTTOM_CENTERED
  | BOTTOM_RIGHT
  | PERCENT_OFFSET
  | PIXEL_OFFSET
deriving DecidableEq

/-- Table `OVERLAY_X0_Y0_FACTORS` from `overlay_images.py`: per-mode pair
(x factor, y factor) multiplying `(base_dim - overlay_dim)`. -/
def OVERLAY_X0_Y0_FACTORS : OverlayPosition → ℚ × ℚ
  | .TOP_LEFT => (0, 0)
  | .TOP_CENTERED => (1/2, 0)
  | .TOP_RIGHT => (1, 0)
  | .CENTERED_LEFT => (0, 1/2)
  | .CENTERED => (1/2, 1/2)
  | .CENTERED_RIGHT => (1, 1/2)
  | .BOTTOM_LEFT => (0, 1)
  | .BOTTOM_CENTERED => (1/2, 1)
  | .BOTTOM_RIGHT => (1, 1)
  | .PERCENT_OFFSET => (1, 1)
  | .PIXEL_OFFSET => (0, 0)

/-- The BGRA view of an image whose stored channel count is `in_c`:
channels 0–2 duplicate the grey sample when `in_c = 1`, channel 3 is the
stored alpha when `in_c = 4` and fully opaque (1) otherwise. -/
def bgraVal (img : Image) (in_c : ℕ) (y x c : ℕ) : ℚ :=
  if c < 3 then (if in_c = 1 then img.data y x 0 else img.data y x c)
  else if in_c = 4 then img.data y x 3 else 1

/-- Modelled from the spec: `convert_to_BGRA` from the host package
`nodes.impl.pil_utils`, which is not part of this repository's sources.
Per the spec's channel-count reconciliation rule it duplicates channels to
reach 3 and adds an opaque alpha plane to reach 4, and it returns a fresh
buffer (the spec declares all inputs immutable). -/
def convert_to_BGRA (img : Image) (in_c : ℕ) : Image :=
  ⟨img.height, img.width, 4, fun y x c => bgraVal img in_c y x c⟩

/-- Modelled from the spec: `as_2d_grayscale` from the host package
`nodes.impl.image_utils` followed by `np.dstack((o, o, o))` as used on the
dead branch of the channel-reconciliation step: the single grey plane is
duplicated into three channels. -/
def dstack_gray3 (img : Image) : Image :=
  ⟨img.height, img.width, 3, fun y x _ => img.data y x 0⟩

/-- Modelled from the spec: `blend_images` with `BlendMode.NORMAL` from the
host package `nodes.impl.blend`, which is not part of this repository's
sources.  Per the spec it reconciles both operands to the larger channel
count and applies straight (non-premultiplied) alpha compositing
`out = overlay_rgb * overlay_a + base_rgb * (1 - overlay_a)` per colour
channel; the overlap region carries the composited alpha
`overlay_a + base_a * (1 - overlay_a)`. -/
def blend_images (ov base : Image) : Image :=
  let c := max ov.channels base.channels
  ⟨base.height, base.width, c, fun y x ch =>
    let a := bgraVal ov ov.channels y x 3
    if ch = 3 then a + bgraVal base base.channels y x 3 * (1 - a)
    else bgraVal ov ov.channels y x ch * a +
      bgraVal base base.channels y x ch * (1 - a)⟩

/-- numpy basic slicing `img[y0:y1, x0:x1]` (with in-range clamping on the
stop indices, as numpy does). -/
def sliceImage (img : Image) (y0 y1 x0 x1 : ℕ) : Image :=
  ⟨min y1 img.height - y0, min x1 img.width - x0, img.channels,
    fun y x c => img.data (y0 + y) (x0 + x) c⟩

/-- numpy slice assignment `dst[y0:y0+src.height, x0:x0+src.width] = src`
(shape-matched source, all channels). -/
def writeRegion (dst : Image) (y0 x0 : ℕ) (src : Image) : Image :=
  ⟨dst.height, dst.width, dst.channels, fun y x c =>
    if y0 ≤ y ∧ y < y0 + src.height ∧ x0 ≤ x ∧ x < x0 + src.width then
      src.data (y - y0) (x - x0) c
    else dst.data y x c⟩

/-- Statement `overlay[:, :, 3] *= opacity` on a BGRA buffer: scale the alpha
channel in place. -/
def scaleAlpha (img : Image) (k : ℚ) : Image :=
  ⟨img.height, img.width, img.channels, fun y x c =>
    if c = 3 then img.data y x c * k else img.data y x c⟩

/-- The anchor `(x0, y0)` of the overlay inside the base, exactly as
computed by `overlay_images_node` for each position mode:
percent mode truncates `(50 + offset/2) * base_dim/100 - overlay_dim/2`,
pixel mode rounds `offset + (base_dim - overlay_dim)/2` with Python's
`round`, and the nine fixed modes truncate
`(base_dim - overlay_dim) * factor`. -/
def overlayAnchor (pos : OverlayPosition) (bw bh ow oh : ℕ)
    (x_percent y_percent x_px y_px : ℤ) : ℤ × ℤ :=
  match pos with
  | .PERCENT_OFFSET =>
      (truncQ ((50 + (x_percent : ℚ)/2) * (bw : ℚ)/100 - (ow : ℚ)/2),
       truncQ ((50 + (y_percent : ℚ)/2) * (bh : ℚ)/100 - (oh : ℚ)/2))
  | .PIXEL_OFFSET =>
      (pythonRound ((x_px : ℚ) + ((bw : ℚ) - (ow : ℚ))/2),
       pythonRound ((y_px : ℚ) + ((bh : ℚ) - (oh : ℚ))/2))
  | _ =>
      (truncQ (((bw : ℚ) - (ow : ℚ)) * (OVERLAY_X0_Y0_FACTORS pos).1),
       truncQ (((bh : ℚ) - (oh : ℚ)) * (OVERLAY_X0_Y0_FACTORS pos).2))

/-- Expression `int((base_dim + overlay_dim) / 2)` from the pixel-offset
validation. -/
def overlayMaxDim (base_dim overlay_dim : ℕ) : ℤ :=
  ((base_dim + overlay_dim : ℕ) : ℤ) / 2

/-- The pixel-offset assertion `-max_dim < offset < max_dim`. -/
def pixelOffsetOk (base_dim overlay_dim : ℕ) (offset : ℤ) : Prop :=
  -overlayMaxDim base_dim overlay_dim < offset ∧
    offset < overlayMaxDim base_dim overlay_dim

instance (b o : ℕ) (p : ℤ) : Decidable (pixelOffsetOk b o p) := by
  unfold pixelOffsetOk; infer_instance

/-- The intersection rectangle `(i_x0, i_x1, i_y0, i_y1)` of the placed
overlay with the base bounds. -/
def interRect (x0 y0 : ℤ) (bw bh ow oh : ℕ) : ℤ × ℤ × ℤ × ℤ :=
  (max 0 x0, min (x0 + (ow : ℤ)) (bw : ℤ),
   max 0 y0, min (y0 + (oh : ℤ)) (bh : ℤ))

/-- The degeneracy test of `overlay_images_node`:
`not (0 <= i_x0 < i_x1 and 0 <= i_y0 < i_y1)`. -/
def interDegenerate (r : ℤ × ℤ × ℤ × ℤ) : Prop :=
  ¬((0 ≤ r.1 ∧ r.1 < r.2.1) ∧ (0 ≤ r.2.2.1 ∧ r.2.2.1 < r.2.2.2))

instance (r : ℤ × ℤ × ℤ × ℤ) : Decidable (interDegenerate r) := by
  unfold interDegenerate; infer_instance

/-- The blending path of `overlay_images_node` (source lines 200-241),
reached when opacity is non-zero, any pixel-offset validation passed and
the intersection is non-degenerate: crop the overlay to the intersection,
convert it to BGRA and scale its alpha by `opacity/100` unless
`opacity == 100 and overlay_channel_count == 4`, blend with the matching
region of the (copied) base, reconcile the output channel count, and write
the blended region back. -/
def overlayBlendPath (base overlay : Image) (opacity : ℚ)
    (x0 y0 : ℤ) : Image :=
  let r := interRect x0 y0 base.width base.height
    overlay.width overlay.height
  let i_x0 := r.1.toNat
  let i_x1 := r.2.1.toNat
  let i_y0 := r.2.2.1.toNat
  let i_y1 := r.2.2.2.toNat
  let ov_x0 := (max 0 (-x0)).toNat
  let ov_x1 := ov_x0 + (i_x1 - i_x0)
  let ov_y0 := (max 0 (-y0)).toNat
  let ov_y1 := ov_y0 + (i_y1 - i_y0)
  -- crop overlay (a view of the caller's buffer; never written to)
  let overlay1 := if ov_y1 - ov_y0 > 0 ∨ ov_x1 - ov_x0 > 0 then
      sliceImage overlay ov_y0 ov_y1 ov_x0 ov_x1
    else overlay
  -- base.copy(): all subsequent writes go to this private copy
  let base1 := base
  -- apply opacity (conversion returns a fresh buffer, then the alpha
  -- plane of that fresh buffer is scaled in place)
  let overlay2 := if ¬(opacity = 100 ∧ overlay.channels = 4) then
      scaleAlpha (convert_to_BGRA overlay1 overlay.channels)
        (opacity / 100)
    else overlay1
  let blended := blend_images overlay2
    (sliceImage base1 i_y0 i_y1 i_x0 i_x1)
  let output := if base.channels < blended.channels then
      (if blended.channels = 4 then convert_to_BGRA base1 base.channels
       else dstack_gray3 base1)
    else base1
  writeRegion output i_y0 i_x0 blended

/-- Result of one invocation of the overlay node: the returned value (or
the message of the raised `AssertionError`), together with the contents of
the caller's two input buffers after the call.  The source mutates only
fresh buffers (`base.copy()` at line 213; `convert_to_BGRA` returns a new
array before the in-place alpha scaling at line 219), so the embedding
threads the unchanged input buffers through explicitly. -/
structure OverlayRun where
  output : Except String Image
  base_after : Image
  overlay_after : Image

/-- Shallow embedding of `overlay_images_node` from
`src/overlay_images/overlay_images.py`, following the source line by line:
opacity-0 fast path; anchor computation per mode; the two pixel-offset
assertions; intersection clipping with the degenerate no-op path; overlay
crop; `base.copy()`; BGRA conversion and alpha scaling unless
`opacity == 100 and overlay_channel_count == 4`; `blend_images`;
channel-count reconciliation of the output; and the final region write. -/
def overlay_images_run (base overlay : Image) (opacity : ℚ)
    (overlay_position : OverlayPosition)
    (x_percent y_percent x_px y_px : ℤ) : OverlayRun :=
  if opacity = 0 then ⟨Except.ok base, base, overlay⟩
  else
    let p := overlayAnchor overlay_position base.width base.height
      overlay.width overlay.height x_percent y_percent x_px y_px
    let x0 := p.1
    let y0 := p.2
    if overlay_position = .PIXEL_OFFSET ∧
        ¬pixelOffsetOk base.width overlay.width x_px then
      ⟨Except.error ("X offset must be in " ++
          toString (1 - overlayMaxDim base.width overlay.width) ++ ".." ++
          toString (overlayMaxDim base.width overlay.width - 1) ++ " range"),
        base, overlay⟩
    else if overlay_position = .PIXEL_OFFSET ∧
        ¬pixelOffsetOk base.height overlay.height y_px then
      ⟨Except.error ("Y offset must be in " ++
          toString (1 - overlayMaxDim base.height overlay.height) ++ ".." ++
          toString (overlayMaxDim base.height overlay.height - 1) ++ " range"),
        base, overlay⟩
    else
      let r := interRect x0 y0 base.width base.height
        overlay.width overlay.height
      if interDegenerate r then ⟨Except.ok base, base, overlay⟩
      else ⟨Except.ok (overlayBlendPath base overlay opacity x0 y0),
        base, overlay⟩

/-- Function `overlay_images_node`: the value returned (or error raised) by an
invocation. -/
def overlay_images_node (base overlay : Image) (opacity : ℚ)
    (overlay_position : OverlayPosition)
    (x_percent y_percent x_px y_px : ℤ) : Except String Image :=
  (overlay_images_run base overlay opacity overlay_position
    x_percent y_percent x_px y_px).output

/-- Enumeration `MorphOperation` from `morphology.py`. -/
inductive MorphOperation where
  | EROSION
  | DILATION
  | OPENING
  | CLOSING
  | GRADIENT
deriving DecidableEq

/-- Enumeration `MorphShape` from `morphology.py`. -/
inductive MorphShape where
  | RECTANGLE
  | ELLIPSE
  | CROSS
deriving DecidableEq

/-- The OpenCV morphology primitives called by `morphology_node`
(`cv2.getStructuringElement`, `cv2.erode`, `cv2.dilate` and
`cv2.morphologyEx` with the open/close/gradient operation codes).  They
are external library calls, left abstract over a structuring-element type
`K`. -/
structure CvMorphOps (K : Type) where
  getStructuringElement : MorphShape → ℤ × ℤ → K
  erode : Image → K → ℤ → Image
  dilate : Image → K → ℤ → Image
  morphologyEx_open : Image → K → ℤ → Image
  morphologyEx_close : Image → K → ℤ → Image
  morphologyEx_gradient : Image → K → ℤ → Image

/-- Shallow embedding of `morphology_node` from
`src/morphology/morphology.py`: early return when `radius == 0 or
iterations == 0`, otherwise a `(2*radius+1)`-square structuring element is
built and the selected OpenCV operation is applied. -/
def morphology_node {K : Type} (cv : CvMorphOps K) (img : Image)
    (morph_operation : MorphOperation) (morph_shape : MorphShape)
    (radius iterations : ℤ) : Image :=
  if radius = 0 ∨ iterations = 0 then img
  else
    let size := 2 * radius + 1
    let kernel := cv.getStructuringElement morph_shape (size, size)
    match morph_operation with
    | .EROSION => cv.erode img kernel iterations
    | .DILATION => cv.dilate img kernel iterations
    | .OPENING => cv.morphologyEx_open img kernel iterations
    | .CLOSING => cv.morphologyEx_close img kernel iterations
    | .GRADIENT => cv.morphologyEx_gradient img kernel iterations

/-- Enumeration `ImageExtension` from `images_to_video.py`. -/
inductive ImageExtension where
  | BMP
  | JPEG
  | JPG
  | PNG
deriving DecidableEq

/-- The `.value` of each `ImageExtension` member. -/
def ImageExtension.value : ImageExtension → String
  | .BMP => ".bmp"
  | .JPEG => ".jpeg"
  | .JPG => ".jpg"
  | .PNG => ".png"

/-- One entry of `os.listdir(image_directory)` together with the result of
`os.path.isfile` on the joined path (the directory snapshot the node
observes). -/
structure DirEntry where
  name : String
  is_file : Bool

/-- Python `os.path.join` for a POSIX directory prefix and an entry name. -/
def path_join (dir name : String) : String :=
  if dir.toList.getLast? = some (Char.ofNat 47) ∨ dir = "" then dir ++ name
  else dir ++ "/" ++ name

/-- Index of the last occurrence of `c`, or `-1` when absent — Python's
`str.rfind`. -/
def rfindChar (c : Char) : List Char → ℤ
  | [] => -1
  | x :: xs =>
      let r := rfindChar c xs
      if r ≥ 0 then r + 1 else if x = c then 0 else -1

/-- Whether some position strictly between `lo` and `hi` holds a character
other than `'.'` — the leading-dot test of CPython's `splitext`. -/
def hasNonDotBetween (cs : List Char) (lo hi : ℤ) : Bool :=
  (List.range cs.length).any fun i =>
    decide (lo < (i : ℤ) ∧ (i : ℤ) < hi ∧ cs.getD i '.' ≠ '.')

/-- The extension part of CPython's `os.path.splitext`: the suffix from the
last dot of the final path component, unless only dots precede it there
(so `".png"` has no extension while `"a.png"` has `".png"`). -/
def splitextExt (p : String) : String :=
  let cs := p.toList
  let sepIndex := rfindChar '/' cs
  let dotIndex := rfindChar '.' cs
  if sepIndex < dotIndex ∧ hasNonDotBetween cs sepIndex dotIndex then
    String.mk (cs.drop dotIndex.toNat)
  else ""

/-- Python's `str.lower` on the ASCII extension strings in play:
per-character lower-casing. -/
def lowerStr (s : String) : String :=
  String.mk (s.toList.map Char.toLower)

/-- Function `get_extension` from `images_to_video.py`:
`os.path.splitext(filepath)[1].lower()`. -/
def get_extension (filepath : String) : String :=
  lowerStr (splitextExt filepath)

/-- The single-quote character, written by code point to spell the
concatenation-file line format. -/
def squote : String :=
  String.mk [Char.ofNat 39]

/-- What `images_to_video_node` hands to FFmpeg: the lines of the
concatenation file (written sorted) and the output video path.  The FFmpeg
process itself and its stderr scan are external effects outside this
embedding. -/
structure VideoJob where
  concat_lines : List String
  video_filepath : String

/-- Shallow embedding of the validating front part of
`images_to_video_node` from `src/images_to_video/images_to_video.py`:
list the directory, keep regular files whose lower-cased extension equals
the selected one, assert at least 5 of them (raising
"Not enough images to generate a video" otherwise, before anything is
written), then write the sorted concatenation file and invoke FFmpeg on
the output path `<video_directory>/<video_name>.<video_container>`. -/
def images_to_video_node (image_directory : String)
    (image_extension : ImageExtension) (video_directory : String)
    (video_name : String) (video_container : String)
    (listing : List DirEntry) : Except String VideoJob :=
  let content := listing.map fun e => (path_join image_directory e.name, e.is_file)
  let filepaths := (content.filter fun fp =>
    fp.2 && decide (get_extension fp.1 = image_extension.value)).map Prod.fst
  if filepaths.length ≥ 5 then
    Except.ok
      ⟨(filepaths.mergeSort (· ≤ ·)).map
          (fun p => "file " ++ squote ++ p ++ squote ++ " \n"),
        path_join video_directory (video_name ++ "." ++ video_container)⟩
  else Except.error "Not enough images to generate a video"

def trivialCvOps : CvMorphOps Unit :=
  ⟨fun _ _ => (), fun i _ _ => i, fun i _ _ => i, fun i _ _ => i,
    fun i _ _ => i, fun i _ _ => i⟩

/-- The anchor as computed inside one invocation, from the two images'
dimensions. -/
def nodeAnchor (base overlay : Image) (pos : OverlayPosition)
    (xp yp xpx ypx : ℤ) : ℤ × ℤ :=
  overlayAnchor pos base.width base.height overlay.width overlay.height
    xp yp xpx ypx

/-- The intersection rectangle as computed inside one invocation. -/
def nodeRect (base overlay : Image) (pos : OverlayPosition)
    (xp yp xpx ypx : ℤ) : ℤ × ℤ × ℤ × ℤ :=
  interRect (nodeAnchor base overlay pos xp yp xpx ypx).1
    (nodeAnchor base overlay pos xp yp xpx ypx).2
    base.width base.height overlay.width overlay.height

/-! ### Helper lemmas and claim theorems -/

theorem truncQ_of_nonneg (q : ℚ) (h : 0 ≤ q) : truncQ q = ⌊q⌋ := by
  rw [truncQ, Rat.floor_def]
  exact Int.tdiv_eq_ediv (Rat.num_nonneg.mpr h) (by positivity)

theorem truncQ_of_nonpos (q : ℚ) (h : q ≤ 0) : truncQ q = ⌈q⌉ := by
  have h1 : q.num ≤ 0 := Rat.num_nonpos.mpr h
  have h2 : truncQ q = -Int.tdiv (-q.num) q.den := by
    rw [truncQ, Int.neg_tdiv]; ring
  have h3 : (-q).num = -q.num := rfl
  have h4 : (-q).den = q.den := rfl
  rw [h2, Int.tdiv_eq_ediv (by omega) (by positivity)]
  have h5 : ⌊-q⌋ = -q.num / (q.den : ℤ) := by rw [Rat.floor_def, h3, h4]
  have h6 : ⌊-q⌋ = -⌈q⌉ := by rw [Int.floor_neg]
  omega

theorem truncQ_intCast (n : ℤ) : truncQ (n : ℚ) = n := by
  rcases le_or_lt 0 n with h | h
  · rw [truncQ_of_nonneg _ (by exact_mod_cast h), Int.floor_intCast]
  · rw [truncQ_of_nonpos _ (by exact_mod_cast h.le), Int.ceil_intCast]

theorem pythonRound_intCast (n : ℤ) : pythonRound (n : ℚ) = n := by
  unfold pythonRound
  rw [Int.floor_intCast]
  norm_num

/-- C4: for every base, overlay, position mode and offsets, if opacity
equals 0 then `overlay_images_node` returns an output bit-identical to the
base input (the explicit fast path at lines 154-155), skipping clipping
and blending, and never raises. -/
theorem opacity_zero_is_identity (base overlay : Image) (opacity : ℚ)
    (pos : OverlayPosition) (xp yp xpx ypx : ℤ) (h : opacity = 0) :
    overlay_images_node base overlay opacity pos xp yp xpx ypx =
      Except.ok base := by
  subst h
  simp [overlay_images_node, overlay_images_run]

/-- C4 witness: a concrete zero-opacity invocation. -/
theorem opacity_zero_is_identity_witness :
    overlay_images_node ⟨1, 1, 3, fun _ _ _ => 0⟩ ⟨1, 1, 3, fun _ _ _ => 0⟩
      0 .CENTERED 0 0 0 0 = Except.ok ⟨1, 1, 3, fun _ _ _ => 0⟩ :=
  opacity_zero_is_identity _ _ _ _ _ _ _ _ rfl

/-- C3: `overlay_images_node` never mutates the base or overlay buffers it
receives: on every path of `overlay_images_run` the contents of the
caller's two buffers after the call equal the inputs, because all writes
target the private copy of the base (or the fresh conversion buffers). -/
theorem inputs_never_mutated (base overlay : Image) (opacity : ℚ)
    (pos : OverlayPosition) (xp yp xpx ypx : ℤ) :
    (overlay_images_run base overlay opacity pos xp yp xpx ypx).base_after =
        base ∧
      (overlay_images_run base overlay opacity pos xp yp xpx ypx).overlay_after =
        overlay := by
  unfold overlay_images_run
  split_ifs <;> (try exact ⟨rfl, rfl⟩) <;>
    (simp only []; split <;> exact ⟨rfl, rfl⟩)

/-- C9: `morphology_node` with radius = 0 or iterations = 0 is the
identity on its input image for every operation and structuring-element
shape. -/
theorem morphology_zero_identity {K : Type} (cv : CvMorphOps K) (img : Image)
    (op : MorphOperation) (shape : MorphShape) (radius iterations : ℤ)
    (h : radius = 0 ∨ iterations = 0) :
    morphology_node cv img op shape radius iterations = img := by
  unfold morphology_node
  rw [if_pos h]

/-- C9 witness: radius 0 with trivial OpenCV primitives. -/
theorem morphology_zero_identity_witness :
    morphology_node trivialCvOps ⟨2, 2, 3, fun _ _ _ => 1⟩ .EROSION .RECTANGLE
      0 5 = ⟨2, 2, 3, fun _ _ _ => 1⟩ :=
  morphology_zero_identity _ _ _ _ _ _ (Or.inl rfl)

/-- C10: `images_to_video_node` raises the assertion error "Not enough
images to generate a video" before writing the concatenation file or the
video whenever fewer than 5 regular files of the directory have the
selected extension (lower-cased). -/
theorem too_few_images_error (image_directory : String)
    (image_extension : ImageExtension) (video_directory video_name : String)
    (video_container : String) (listing : List DirEntry)
    (h : ((listing.map fun e =>
        (path_join image_directory e.name, e.is_file)).filter fun fp =>
          fp.2 && decide (get_extension fp.1 = image_extension.value)).length < 5) :
    images_to_video_node image_directory image_extension video_directory
        video_name video_container listing =
      Except.error "Not enough images to generate a video" := by
  unfold images_to_video_node
  rw [if_neg]
  simp only [List.length_map]
  omega

/-- C10 witness: a directory snapshot with only 2 matching images. -/
theorem too_few_images_error_witness :
    images_to_video_node "/tmp/in" .PNG "/tmp/out" "vid" "mkv"
        [⟨"a.png", true⟩, ⟨"b.PNG", true⟩, ⟨"c.jpg", true⟩,
          ⟨"d.png", false⟩, ⟨".png", true⟩] =
      Except.error "Not enough images to generate a video" :=
  too_few_images_error _ _ _ _ _ _ (by decide)

theorem anchor_axis_bounds (b o : ℕ) (f : ℚ) (hf0 : 0 ≤ f) (hf1 : f ≤ 1)
    (hob : o ≤ b) :
    0 ≤ truncQ (((b : ℚ) - (o : ℚ)) * f) ∧
      truncQ (((b : ℚ) - (o : ℚ)) * f) + (o : ℤ) ≤ (b : ℤ) := by
  have hd : (0 : ℚ) ≤ (b : ℚ) - (o : ℚ) := by
    have h : (o : ℚ) ≤ (b : ℚ) := by exact_mod_cast hob
    linarith
  have hq0 : 0 ≤ ((b : ℚ) - (o : ℚ)) * f := mul_nonneg hd hf0
  have hq1 : ((b : ℚ) - (o : ℚ)) * f ≤ (b : ℚ) - (o : ℚ) := by nlinarith
  rw [truncQ_of_nonneg _ hq0]
  refine ⟨Int.floor_nonneg.mpr hq0, ?_⟩
  have h2 : ⌊((b : ℚ) - (o : ℚ)) * f⌋ ≤ ⌊(b : ℚ) - (o : ℚ)⌋ :=
    Int.floor_le_floor hq1
  have h3 : ⌊(b : ℚ) - (o : ℚ)⌋ = (b : ℤ) - (o : ℤ) := by
    rw [show (b : ℚ) - (o : ℚ) = (((b : ℤ) - (o : ℤ) : ℤ) : ℚ) by push_cast; ring,
      Int.floor_intCast]
  omega

theorem interRect_of_bounds (x0 y0 : ℤ) (bw bh ow oh : ℕ)
    (hx0 : 0 ≤ x0) (hx1 : x0 + ow ≤ bw) (hy0 : 0 ≤ y0) (hy1 : y0 + oh ≤ bh) :
    interRect x0 y0 bw bh ow oh = (x0, x0 + (ow : ℤ), y0, y0 + (oh : ℤ)) := by
  unfold interRect
  rw [max_eq_right hx0, max_eq_right hy0, min_eq_left hx1, min_eq_left hy1]

theorem factors_bounds (pos : OverlayPosition) :
    0 ≤ (OVERLAY_X0_Y0_FACTORS pos).1 ∧ (OVERLAY_X0_Y0_FACTORS pos).1 ≤ 1 ∧
      0 ≤ (OVERLAY_X0_Y0_FACTORS pos).2 ∧ (OVERLAY_X0_Y0_FACTORS pos).2 ≤ 1 := by
  cases pos <;> norm_num [OVERLAY_X0_Y0_FACTORS]

theorem factors_mem (pos : OverlayPosition) :
    (OVERLAY_X0_Y0_FACTORS pos).1 ∈ ({0, 1/2, 1} : Set ℚ) ∧
      (OVERLAY_X0_Y0_FACTORS pos).2 ∈ ({0, 1/2, 1} : Set ℚ) := by
  cases pos <;> simp [OVERLAY_X0_Y0_FACTORS]

/-- C7: for each of the nine fixed position modes the anchor is computed
per axis as `int((base_dim - overlay_dim) * factor)` with factor drawn
from {0, 1/2, 1} per the mode table, and for positive overlay dimensions
not exceeding the base the intersection rectangle is exactly
`(x0, x0 + Wo) x (y0, y0 + Ho)`: no clipping occurs. -/
theorem fixed_mode_anchor_and_intersection (pos : OverlayPosition)
    (bw bh ow oh : ℕ) (xp yp xpx ypx : ℤ)
    (hp : pos ≠ OverlayPosition.PERCENT_OFFSET ∧
      pos ≠ OverlayPosition.PIXEL_OFFSET)
    (hw0 : 0 < ow) (hwb : ow ≤ bw) (hh0 : 0 < oh) (hhb : oh ≤ bh) :
    ((OVERLAY_X0_Y0_FACTORS pos).1 ∈ ({0, 1/2, 1} : Set ℚ) ∧
      (OVERLAY_X0_Y0_FACTORS pos).2 ∈ ({0, 1/2, 1} : Set ℚ)) ∧
    overlayAnchor pos bw bh ow oh xp yp xpx ypx =
      (truncQ (((bw : ℚ) - (ow : ℚ)) * (OVERLAY_X0_Y0_FACTORS pos).1),
       truncQ (((bh : ℚ) - (oh : ℚ)) * (OVERLAY_X0_Y0_FACTORS pos).2)) ∧
    interRect (truncQ (((bw : ℚ) - (ow : ℚ)) * (OVERLAY_X0_Y0_FACTORS pos).1))
        (truncQ (((bh : ℚ) - (oh : ℚ)) * (OVERLAY_X0_Y0_FACTORS pos).2))
        bw bh ow oh =
      (truncQ (((bw : ℚ) - (ow : ℚ)) * (OVERLAY_X0_Y0_FACTORS pos).1),
       truncQ (((bw : ℚ) - (ow : ℚ)) * (OVERLAY_X0_Y0_FACTORS pos).1) + (ow : ℤ),
       truncQ (((bh : ℚ) - (oh : ℚ)) * (OVERLAY_X0_Y0_FACTORS pos).2),
       truncQ (((bh : ℚ) - (oh : ℚ)) * (OVERLAY_X0_Y0_FACTORS pos).2) + (oh : ℤ)) := by
  obtain ⟨hf1a, hf1b, hf2a, hf2b⟩ := factors_bounds pos
  obtain ⟨hx0, hx1⟩ := anchor_axis_bounds bw ow _ hf1a hf1b hwb
  obtain ⟨hy0, hy1⟩ := anchor_axis_bounds bh oh _ hf2a hf2b hhb
  refine ⟨factors_mem pos, ?_, interRect_of_bounds _ _ _ _ _ _ hx0 hx1 hy0 hy1⟩
  obtain ⟨h1, h2⟩ := hp
  cases pos
  case PERCENT_OFFSET => exact absurd rfl h1
  case PIXEL_OFFSET => exact absurd rfl h2
  all_goals rfl

/-- C7 witness: the `TOP_CENTERED` mode on a 5 by 4 base with a 2 by 3 overlay. -/
theorem fixed_mode_anchor_and_intersection_witness :
    ((OVERLAY_X0_Y0_FACTORS .TOP_CENTERED).1 ∈ ({0, 1/2, 1} : Set ℚ) ∧
      (OVERLAY_X0_Y0_FACTORS .TOP_CENTERED).2 ∈ ({0, 1/2, 1} : Set ℚ)) ∧
    overlayAnchor .TOP_CENTERED 5 4 2 3 0 0 0 0 =
      (truncQ (((5 : ℚ) - (2 : ℚ)) * (OVERLAY_X0_Y0_FACTORS .TOP_CENTERED).1),
       truncQ (((4 : ℚ) - (3 : ℚ)) * (OVERLAY_X0_Y0_FACTORS .TOP_CENTERED).2)) ∧
    interRect
        (truncQ (((5 : ℚ) - (2 : ℚ)) * (OVERLAY_X0_Y0_FACTORS .TOP_CENTERED).1))
        (truncQ (((4 : ℚ) - (3 : ℚ)) * (OVERLAY_X0_Y0_FACTORS .TOP_CENTERED).2))
        5 4 2 3 =
      (truncQ (((5 : ℚ) - (2 : ℚ)) * (OVERLAY_X0_Y0_FACTORS .TOP_CENTERED).1),
       truncQ (((5 : ℚ) - (2 : ℚ)) * (OVERLAY_X0_Y0_FACTORS .TOP_CENTERED).1) + (2 : ℤ),
       truncQ (((4 : ℚ) - (3 : ℚ)) * (OVERLAY_X0_Y0_FACTORS .TOP_CENTERED).2),
       truncQ (((4 : ℚ) - (3 : ℚ)) * (OVERLAY_X0_Y0_FACTORS .TOP_CENTERED).2) + (3 : ℤ)) := by
  have h := fixed_mode_anchor_and_intersection .TOP_CENTERED 5 4 2 3 0 0 0 0
    (by exact ⟨by decide, by decide⟩) (by decide) (by decide) (by decide) (by decide)
  exact_mod_cast h

theorem percent_zero_anchor (bw bh ow oh : ℕ) (xpx ypx : ℤ) :
    overlayAnchor .PERCENT_OFFSET bw bh ow oh 0 0 xpx ypx =
      overlayAnchor .CENTERED bw bh ow oh 0 0 xpx ypx := by
  simp only [overlayAnchor, OVERLAY_X0_Y0_FACTORS]
  rw [show (50 + ((0 : ℤ) : ℚ)/2) * (bw : ℚ)/100 - (ow : ℚ)/2 =
      ((bw : ℚ) - (ow : ℚ)) * (1/2) by push_cast; ring,
    show (50 + ((0 : ℤ) : ℚ)/2) * (bh : ℚ)/100 - (oh : ℚ)/2 =
      ((bh : ℚ) - (oh : ℚ)) * (1/2) by push_cast; ring]

theorem percent_zero_run_eq (base overlay : Image) (opacity : ℚ)
    (xpx ypx : ℤ) :
    overlay_images_run base overlay opacity .PERCENT_OFFSET 0 0 xpx ypx =
      overlay_images_run base overlay opacity .CENTERED 0 0 xpx ypx := by
  unfold overlay_images_run
  rw [percent_zero_anchor]
  simp

theorem pythonRound_int_add_half (k : ℤ) :
    pythonRound ((k : ℚ) + 1/2) = if 2 ∣ k then k else k + 1 := by
  unfold pythonRound
  have hf : ⌊(k : ℚ) + 1/2⌋ = k := by
    rw [add_comm, Int.floor_add_int]
    norm_num
  rw [hf]
  have he : ((k : ℚ) + 1/2) - (k : ℚ) = 1/2 := by ring
  rw [he]
  norm_num

theorem truncQ_int_add_half (k : ℤ) :
    truncQ ((k : ℚ) + 1/2) = if 0 ≤ k then k else k + 1 := by
  by_cases h : 0 ≤ k
  · rw [if_pos h, truncQ_of_nonneg]
    · rw [add_comm, Int.floor_add_int]
      norm_num
    · have hq : (0 : ℚ) ≤ (k : ℚ) := by exact_mod_cast h
      linarith
  · rw [if_neg h, truncQ_of_nonpos]
    · rw [add_comm, Int.ceil_add_int,
        show ⌈(1 : ℚ)/2⌉ = 1 by rw [Int.ceil_eq_iff] <;> norm_num]
      ring
    · have hk1 : k ≤ -1 := by omega
      have hq : (k : ℚ) ≤ -1 := by exact_mod_cast hk1
      linarith

theorem pixel_centered_axis (d : ℤ) :
    pythonRound ((d : ℚ)/2) = truncQ ((d : ℚ)/2) ↔ d.natAbs % 4 ≠ 3 := by
  rcases Int.even_or_odd d with ⟨k, hk⟩ | ⟨k, hk⟩
  · have e : (d : ℚ)/2 = ((k : ℤ) : ℚ) := by
      rw [hk]; push_cast; ring
    rw [e, pythonRound_intCast, truncQ_intCast]
    simp only [eq_self_iff_true, true_iff]
    omega
  · have e : (d : ℚ)/2 = ((k : ℤ) : ℚ) + 1/2 := by
      rw [hk]; push_cast; ring
    rw [e, pythonRound_int_add_half, truncQ_int_add_half]
    split_ifs <;> simp <;> omega

/-- C8 (amended): percent-offset (0,0) computes the same anchor and the
same run result as the `CENTERED` mode for all inputs; pixel-offset (0,0)
computes the same anchor as `CENTERED` if and only if on each axis the
dimension difference `base_dim - overlay_dim` has absolute value not
congruent to 3 modulo 4 - exactly where Python's round-half-to-even
agrees with the fixed modes' truncation. -/
theorem offset_zero_vs_centered :
    (∀ (base overlay : Image) (opacity : ℚ) (xpx ypx : ℤ),
      overlay_images_run base overlay opacity .PERCENT_OFFSET 0 0 xpx ypx =
        overlay_images_run base overlay opacity .CENTERED 0 0 xpx ypx) ∧
    (∀ (bw bh ow oh : ℕ) (xp yp : ℤ),
      overlayAnchor .PIXEL_OFFSET bw bh ow oh xp yp 0 0 =
        overlayAnchor .CENTERED bw bh ow oh xp yp 0 0 ↔
      (((bw : ℤ) - (ow : ℤ)).natAbs % 4 ≠ 3 ∧
        ((bh : ℤ) - (oh : ℤ)).natAbs % 4 ≠ 3)) := by
  refine ⟨percent_zero_run_eq, ?_⟩
  intro bw bh ow oh xp yp
  simp only [overlayAnchor, OVERLAY_X0_Y0_FACTORS]
  rw [show ((0 : ℤ) : ℚ) + ((bw : ℚ) - (ow : ℚ))/2 =
      ((((bw : ℤ) - (ow : ℤ)) : ℤ) : ℚ)/2 by push_cast; ring,
    show ((0 : ℤ) : ℚ) + ((bh : ℚ) - (oh : ℚ))/2 =
      ((((bh : ℤ) - (oh : ℤ)) : ℤ) : ℚ)/2 by push_cast; ring,
    show ((bw : ℚ) - (ow : ℚ)) * (1/2) =
      ((((bw : ℤ) - (ow : ℤ)) : ℤ) : ℚ)/2 by push_cast; ring,
    show ((bh : ℚ) - (oh : ℚ)) * (1/2) =
      ((((bh : ℤ) - (oh : ℤ)) : ℤ) : ℚ)/2 by push_cast; ring,
    Prod.mk.injEq, pixel_centered_axis, pixel_centered_axis]

/-- C8 counterexample: with a 5-wide/high base and 2-wide/high overlay,
pixel-offset (0,0) anchors at (2,2) while centered anchors at (1,1). -/
theorem offset_zero_vs_centered_cex :
    overlayAnchor .PIXEL_OFFSET 5 5 2 2 0 0 0 0 ≠
      overlayAnchor .CENTERED 5 5 2 2 0 0 0 0 := by
  have h1 : overlayAnchor .PIXEL_OFFSET 5 5 2 2 0 0 0 0 = (2, 2) := by
    simp only [overlayAnchor]
    rw [show ((0 : ℤ) : ℚ) + (((5 : ℕ) : ℚ) - ((2 : ℕ) : ℚ))/2 = 3/2 by norm_num]
    rw [show pythonRound ((3 : ℚ)/2) = 2 by unfold pythonRound; norm_num]
  have h2 : overlayAnchor .CENTERED 5 5 2 2 0 0 0 0 = (1, 1) := by
    simp only [overlayAnchor, OVERLAY_X0_Y0_FACTORS]
    rw [show (((5 : ℕ) : ℚ) - ((2 : ℕ) : ℚ)) * (1/2) = 3/2 by norm_num]
    rw [show truncQ ((3 : ℚ)/2) = 1 by
      rw [truncQ_of_nonneg _ (by norm_num)]; norm_num]
  rw [h1, h2]
  decide

/-- C8 witness: concrete instantiations of both halves of the theorem. -/
theorem offset_zero_vs_centered_witness :
    (overlay_images_run ⟨2, 2, 3, fun _ _ _ => 1⟩ ⟨1, 1, 3, fun _ _ _ => 0⟩
        50 .PERCENT_OFFSET 0 0 0 0 =
      overlay_images_run ⟨2, 2, 3, fun _ _ _ => 1⟩ ⟨1, 1, 3, fun _ _ _ => 0⟩
        50 .CENTERED 0 0 0 0) ∧
    (overlayAnchor .PIXEL_OFFSET 6 6 2 2 0 0 0 0 =
        overlayAnchor .CENTERED 6 6 2 2 0 0 0 0 ↔
      (((6 : ℤ) - (2 : ℤ)).natAbs % 4 ≠ 3 ∧
        ((6 : ℤ) - (2 : ℤ)).natAbs % 4 ≠ 3)) :=
  ⟨offset_zero_vs_centered.1 _ _ _ _ _,
   offset_zero_vs_centered.2 6 6 2 2 0 0⟩

/-- C2 (amended): in pixel-offset mode with non-zero opacity,
`overlay_images_node` raises a validation error if and only if on some
axis the offset lies outside `(1 - max_dim) .. (max_dim - 1)` with
`max_dim = int((base_dim + overlay_dim)/2)` (truncating division, not
`round`), the check happening before any blending. -/
theorem pixel_offset_validation (base overlay : Image) (opacity : ℚ)
    (xp yp xpx ypx : ℤ) (hop : opacity ≠ 0) :
    (overlay_images_node base overlay opacity .PIXEL_OFFSET xp yp xpx ypx).isOk
        = false ↔
      ¬(pixelOffsetOk base.width overlay.width xpx ∧
        pixelOffsetOk base.height overlay.height ypx) := by
  unfold overlay_images_node overlay_images_run
  rw [if_neg hop]
  simp only []
  by_cases hx : pixelOffsetOk base.width overlay.width xpx
  · by_cases hy : pixelOffsetOk base.height overlay.height ypx
    · rw [if_neg (by simp [hx]), if_neg (by simp [hy])]
      split
      · simp [Except.isOk, Except.toBool, hx, hy]
      · simp [Except.isOk, Except.toBool, hx, hy]
    · rw [if_neg (by simp [hx]), if_pos ⟨trivial, hy⟩]
      simp [Except.isOk, Except.toBool, hy]
  · rw [if_pos ⟨trivial, hx⟩]
    simp [Except.isOk, Except.toBool, hx]

/-- C2 counterexample: for Wb = 100, Wo = 51 the claim's round-based range
admits offset 75 (round(75.5) = 76), yet the node raises. -/
theorem pixel_offset_validation_cex :
    (75 : ℤ) ≤ pythonRound (((100 : ℚ) + 51)/2) - 1 ∧
    (overlay_images_node ⟨10, 100, 3, fun _ _ _ => 0⟩ ⟨10, 51, 3, fun _ _ _ => 0⟩
        50 .PIXEL_OFFSET 0 0 75 0).isOk = false := by
  constructor
  · rw [show ((100 : ℚ) + 51)/2 = 151/2 by norm_num,
      show pythonRound ((151 : ℚ)/2) = 76 by unfold pythonRound; norm_num]
    norm_num
  · unfold overlay_images_node overlay_images_run
    rw [if_neg (by norm_num)]
    simp only []
    rw [if_pos ⟨trivial, by decide⟩]
    rfl

/-- C2 witness: the claim's own instance Wb = 100, Wo = 50 - offset 75
raises, offset 74 succeeds. -/
theorem pixel_offset_validation_witness :
    ((overlay_images_node ⟨10, 100, 3, fun _ _ _ => 0⟩ ⟨10, 50, 3, fun _ _ _ => 0⟩
        50 .PIXEL_OFFSET 0 0 75 0).isOk = false ↔
      ¬(pixelOffsetOk 100 50 75 ∧ pixelOffsetOk 10 10 0)) ∧
    ((overlay_images_node ⟨10, 100, 3, fun _ _ _ => 0⟩ ⟨10, 50, 3, fun _ _ _ => 0⟩
        50 .PIXEL_OFFSET 0 0 74 0).isOk = false ↔
      ¬(pixelOffsetOk 100 50 74 ∧ pixelOffsetOk 10 10 0)) :=
  ⟨pixel_offset_validation _ _ _ _ _ _ _ (by norm_num),
   pixel_offset_validation _ _ _ _ _ _ _ (by norm_num)⟩

/-- C5 (amended): for every input with non-zero opacity whose clipped
intersection rectangle is degenerate, `overlay_images_node` returns the
base unchanged and raises no error - provided that in pixel-offset mode
both offsets pass the range validation, which runs before the degeneracy
test. -/
theorem degenerate_intersection_returns_base (base overlay : Image)
    (opacity : ℚ) (pos : OverlayPosition) (xp yp xpx ypx : ℤ)
    (hop : opacity ≠ 0)
    (hpx : pos = .PIXEL_OFFSET →
      pixelOffsetOk base.width overlay.width xpx ∧
        pixelOffsetOk base.height overlay.height ypx)
    (hdeg : interDegenerate (interRect
      (overlayAnchor pos base.width base.height overlay.width overlay.height
        xp yp xpx ypx).1
      (overlayAnchor pos base.width base.height overlay.width overlay.height
        xp yp xpx ypx).2 base.width base.height overlay.width overlay.height)) :
    overlay_images_node base overlay opacity pos xp yp xpx ypx =
      Except.ok base := by
  unfold overlay_images_node overlay_images_run
  rw [if_neg hop]
  simp only []
  rw [if_neg (fun h => h.2 ((hpx h.1).1)), if_neg (fun h => h.2 ((hpx h.1).2)),
    if_pos hdeg]

/-- C5 counterexample: pixel offset 80 on a 100-wide base with a 50-wide
overlay makes the intersection degenerate (anchor 105), yet with opacity
50 the node raises instead of returning the base. -/
theorem degenerate_intersection_cex :
    (0 : ℚ) < 50 ∧
    interDegenerate (interRect
      (overlayAnchor .PIXEL_OFFSET 100 10 50 10 0 0 80 0).1
      (overlayAnchor .PIXEL_OFFSET 100 10 50 10 0 0 80 0).2 100 10 50 10) ∧
    (overlay_images_node ⟨10, 100, 3, fun _ _ _ => 0⟩ ⟨10, 50, 3, fun _ _ _ => 0⟩
        50 .PIXEL_OFFSET 0 0 80 0).isOk = false := by
  refine ⟨by norm_num, ?_, ?_⟩
  · have h : overlayAnchor .PIXEL_OFFSET 100 10 50 10 0 0 80 0 = (105, 0) := by
      simp only [overlayAnchor]
      rw [show ((80 : ℤ) : ℚ) + (((100 : ℕ) : ℚ) - ((50 : ℕ) : ℚ))/2 =
          ((105 : ℤ) : ℚ) by norm_num,
        show ((0 : ℤ) : ℚ) + (((10 : ℕ) : ℚ) - ((10 : ℕ) : ℚ))/2 =
          ((0 : ℤ) : ℚ) by norm_num,
        pythonRound_intCast, pythonRound_intCast]
    rw [h]
    decide
  · unfold overlay_images_node overlay_images_run
    rw [if_neg (by norm_num)]
    simp only []
    rw [if_pos ⟨trivial, by decide⟩]
    rfl

/-- C5 witness: a zero-width overlay in `TOP_LEFT` mode gives an empty
intersection and the base is returned unchanged. -/
theorem degenerate_intersection_returns_base_witness :
    overlay_images_node ⟨2, 2, 3, fun _ _ _ => 0⟩ ⟨2, 0, 3, fun _ _ _ => 0⟩
        50 .TOP_LEFT 0 0 0 0 = Except.ok ⟨2, 2, 3, fun _ _ _ => 0⟩ :=
  degenerate_intersection_returns_base _ _ _ _ _ _ _ _ (by norm_num)
    (fun h => absurd h (by decide))
    (by simp [overlayAnchor, OVERLAY_X0_Y0_FACTORS, interRect, interDegenerate,
      truncQ])

theorem channels_sliceImage (img : Image) (a b c d : ℕ) :
    (sliceImage img a b c d).channels = img.channels := rfl

theorem channels_scaleAlpha (img : Image) (k : ℚ) :
    (scaleAlpha img k).channels = img.channels := rfl

theorem channels_convert_to_BGRA (img : Image) (c : ℕ) :
    (convert_to_BGRA img c).channels = 4 := rfl

theorem channels_dstack_gray3 (img : Image) :
    (dstack_gray3 img).channels = 3 := rfl

theorem channels_blend_images (ov bs : Image) :
    (blend_images ov bs).channels = max ov.channels bs.channels := rfl

theorem channels_writeRegion (dst : Image) (y x : ℕ) (src : Image) :
    (writeRegion dst y x src).channels = dst.channels := rfl

theorem height_sliceImage (img : Image) (a b c d : ℕ) :
    (sliceImage img a b c d).height = min b img.height - a := rfl

theorem height_convert_to_BGRA (img : Image) (c : ℕ) :
    (convert_to_BGRA img c).height = img.height := rfl

theorem height_dstack_gray3 (img : Image) :
    (dstack_gray3 img).height = img.height := rfl

theorem height_writeRegion (dst : Image) (y x : ℕ) (src : Image) :
    (writeRegion dst y x src).height = dst.height := rfl

theorem width_sliceImage (img : Image) (a b c d : ℕ) :
    (sliceImage img a b c d).width = min d img.width - c := rfl

theorem width_convert_to_BGRA (img : Image) (c : ℕ) :
    (convert_to_BGRA img c).width = img.width := rfl

theorem width_dstack_gray3 (img : Image) :
    (dstack_gray3 img).width = img.width := rfl

theorem width_writeRegion (dst : Image) (y x : ℕ) (src : Image) :
    (writeRegion dst y x src).width = dst.width := rfl

/-- C1 (amended): whenever `overlay_images_node` returns, the output has
the base's width and height, and is either the base itself (the no-op
paths: opacity 0 or empty intersection) or has channel count
`max(base channels, 4)` - the blending path always converts to BGRA. -/
theorem overlay_output_shape (base overlay : Image) (opacity : ℚ)
    (pos : OverlayPosition) (xp yp xpx ypx : ℤ) (out : Image)
    (h : overlay_images_node base overlay opacity pos xp yp xpx ypx =
      Except.ok out) :
    out.height = base.height ∧ out.width = base.width ∧
      (out = base ∨ out.channels = max base.channels 4) := by
  unfold overlay_images_node overlay_images_run overlayBlendPath at h
  simp only [] at h
  split at h
  · simp only [Except.ok.injEq] at h
    subst h; exact ⟨rfl, rfl, Or.inl rfl⟩
  · split at h
    · exact absurd h (by simp)
    · split at h
      · exact absurd h (by simp)
      · split at h
        · simp only [Except.ok.injEq] at h
          subst h; exact ⟨rfl, rfl, Or.inl rfl⟩
        · simp only [Except.ok.injEq] at h
          subst h
          have hov2c : (if ¬(opacity = 100 ∧ overlay.channels = 4)
              then (4 : ℕ) else overlay.channels) = 4 := by
            split
            · rfl
            · rename_i hcc; exact (not_not.mp hcc).2
          refine ⟨?_, ?_, Or.inr ?_⟩
          · simp [height_writeRegion, apply_ite Image.height,
              height_convert_to_BGRA, height_dstack_gray3]
          · simp [width_writeRegion, apply_ite Image.width,
              width_convert_to_BGRA, width_dstack_gray3]
          · simp only [channels_writeRegion, apply_ite Image.channels,
              channels_convert_to_BGRA, channels_dstack_gray3,
              channels_blend_images, channels_sliceImage,
              channels_scaleAlpha, hov2c]
            split_ifs <;> omega

/-- C1 counterexample: base and overlay both 3-channel with opacity 50
yield a 4-channel output, not max(3,3) = 3 as the claim states. -/
theorem overlay_output_channels_cex :
    (overlay_images_node ⟨2, 2, 3, fun _ _ _ => 1⟩ ⟨1, 1, 3, fun _ _ _ => 0⟩
        50 .CENTERED 0 0 0 0).map Image.channels ≠
      Except.ok (max (⟨2, 2, 3, fun _ _ _ => 1⟩ : Image).channels
        (⟨1, 1, 3, fun _ _ _ => 0⟩ : Image).channels) := by
  have ha : overlayAnchor .CENTERED 2 2 1 1 0 0 0 0 = (0, 0) := by
    simp only [overlayAnchor, OVERLAY_X0_Y0_FACTORS]
    rw [show (((2 : ℕ) : ℚ) - ((1 : ℕ) : ℚ)) * (1/2) = 1/2 by norm_num,
      show truncQ ((1 : ℚ)/2) = 0 by
        rw [truncQ_of_nonneg _ (by norm_num)]; norm_num]
  unfold overlay_images_node overlay_images_run
  rw [if_neg (by norm_num : ¬(50 : ℚ) = 0)]
  simp only []
  rw [if_neg (by simp), if_neg (by simp)]
  rw [ha]
  simp only []
  rw [if_neg (by decide : ¬interDegenerate (interRect 0 0 2 2 1 1))]
  simp only [overlayBlendPath]
  rw [if_pos (by norm_num : ¬((50 : ℚ) = 100 ∧ (3 : ℕ) = 4))]
  simp [Except.map, channels_writeRegion, apply_ite Image.channels,
    channels_convert_to_BGRA, channels_dstack_gray3, channels_blend_images,
    channels_sliceImage, channels_scaleAlpha]

/-- C1 witness: the opacity-0 path on a greyscale base. -/
theorem overlay_output_shape_witness :
    (⟨3, 5, 1, fun _ _ _ => 0⟩ : Image).height =
        (⟨3, 5, 1, fun _ _ _ => 0⟩ : Image).height ∧
      (⟨3, 5, 1, fun _ _ _ => 0⟩ : Image).width =
        (⟨3, 5, 1, fun _ _ _ => 0⟩ : Image).width ∧
      ((⟨3, 5, 1, fun _ _ _ => 0⟩ : Image) = ⟨3, 5, 1, fun _ _ _ => 0⟩ ∨
        (⟨3, 5, 1, fun _ _ _ => 0⟩ : Image).channels =
          max (⟨3, 5, 1, fun _ _ _ => 0⟩ : Image).channels 4) :=
  overlay_output_shape ⟨3, 5, 1, fun _ _ _ => 0⟩ ⟨2, 2, 4, fun _ _ _ => 0⟩
    0 .TOP_LEFT 0 0 0 0 ⟨3, 5, 1, fun _ _ _ => 0⟩ rfl

theorem blend_data_converted (ov BS : Image) (in_c : ℕ) (hneq : in_c ≠ 4)
    (y x c : ℕ) (hc : c < 4) :
    (blend_images (scaleAlpha (convert_to_BGRA ov in_c) ((100 : ℚ)/100))
        BS).data y x c =
      bgraVal ov in_c y x c := by
  have h100 : (100 : ℚ)/100 = 1 := by norm_num
  simp only [blend_images, scaleAlpha, convert_to_BGRA, h100, mul_one]
  simp only [bgraVal, hneq]
  by_cases h3 : c = 3
  · subst h3
    simp
  · have hlt : c < 3 := by omega
    simp [h3, hlt]

theorem blend_data_skip (ov BS : Image) (hc4 : ov.channels = 4)
    (y x c : ℕ) (hc : c < 4) (ha : ov.data y x 3 = 1) :
    (blend_images ov BS).data y x c = bgraVal ov ov.channels y x c := by
  have haa : bgraVal ov ov.channels y x 3 = 1 := by
    simp [bgraVal, hc4, ha]
  simp only [blend_images, haa]
  by_cases h3 : c = 3
  · subst h3
    simp [haa]
  · simp [h3]

theorem bgraVal_self (img : Image)
    (hbc : img.channels = 1 ∨ img.channels = 3 ∨ img.channels = 4)
    (y x c : ℕ) (hc : c < img.channels) :
    bgraVal img img.channels y x c = img.data y x c := by
  unfold bgraVal
  rcases hbc with hh | hh | hh <;> rw [hh] at hc
  · have hc0 : c = 0 := by omega
    subst hc0
    simp [hh]
  · have hc3 : c < 3 := by omega
    simp [hh, hc3]
  · by_cases h3 : c < 3
    · simp [hh, h3]
    · have hc3 : c = 3 := by omega
      subst hc3
      simp [hh]

theorem height_blend_images (ov bs : Image) :
    (blend_images ov bs).height = bs.height := rfl

theorem width_blend_images (ov bs : Image) :
    (blend_images ov bs).width = bs.width := rfl

theorem blend_data_skip_slice (overlay BS : Image) (a b a2 b2 : ℕ)
    (hc4 : overlay.channels = 4) (y x c : ℕ) (hc : c < 4)
    (ha : overlay.data (a + y) (a2 + x) 3 = 1) :
    (blend_images (sliceImage overlay a b a2 b2) BS).data y x c =
      bgraVal overlay overlay.channels (a + y) (a2 + x) c := by
  have h1 : (sliceImage overlay a b a2 b2).channels = overlay.channels := rfl
  have h2 : (sliceImage overlay a b a2 b2).data y x 3 =
      overlay.data (a + y) (a2 + x) 3 := rfl
  rw [blend_data_skip _ _ (h1.trans hc4) y x c hc (h2.trans ha)]
  rfl

theorem blend_data_converted_slice (overlay BS : Image) (a b a2 b2 : ℕ)
    (in_c : ℕ) (hneq : in_c ≠ 4) (hin : in_c = overlay.channels)
    (y x c : ℕ) (hc : c < 4) :
    (blend_images (scaleAlpha (convert_to_BGRA (sliceImage overlay a b a2 b2)
        in_c) ((100 : ℚ)/100)) BS).data y x c =
      bgraVal overlay overlay.channels (a + y) (a2 + x) c := by
  rw [blend_data_converted _ _ _ hneq y x c hc]
  subst hin
  rfl

theorem overlayBlendPath_data (base overlay : Image) (x0 y0 : ℤ)
    (hbc : base.channels = 1 ∨ base.channels = 3 ∨ base.channels = 4)
    (halpha : overlay.channels = 4 → ∀ y x : ℕ, y < overlay.height →
      x < overlay.width → overlay.data y x 3 = 1)
    (hnd : ¬interDegenerate (interRect x0 y0 base.width base.height
      overlay.width overlay.height))
    (y x : ℕ) (hy : y < base.height) (hx : x < base.width)
    (c : ℕ) (hc : c < 4) :
    (((interRect x0 y0 base.width base.height overlay.width
          overlay.height).2.2.1 ≤ (y : ℤ) ∧
      (y : ℤ) < (interRect x0 y0 base.width base.height overlay.width
          overlay.height).2.2.2 ∧
      (interRect x0 y0 base.width base.height overlay.width
          overlay.height).1 ≤ (x : ℤ) ∧
      (x : ℤ) < (interRect x0 y0 base.width base.height overlay.width
          overlay.height).2.1) →
        (overlayBlendPath base overlay 100 x0 y0).data y x c =
          bgraVal overlay overlay.channels
            (y - (interRect x0 y0 base.width base.height overlay.width
                overlay.height).2.2.1.toNat + (max 0 (-y0)).toNat)
            (x - (interRect x0 y0 base.width base.height overlay.width
                overlay.height).1.toNat + (max 0 (-x0)).toNat) c) ∧
    (¬((interRect x0 y0 base.width base.height overlay.width
          overlay.height).2.2.1 ≤ (y : ℤ) ∧
      (y : ℤ) < (interRect x0 y0 base.width base.height overlay.width
          overlay.height).2.2.2 ∧
      (interRect x0 y0 base.width base.height overlay.width
          overlay.height).1 ≤ (x : ℤ) ∧
      (x : ℤ) < (interRect x0 y0 base.width base.height overlay.width
          overlay.height).2.1) →
        (overlayBlendPath base overlay 100 x0 y0).data y x c =
          bgraVal base base.channels y x c) := by
  unfold interDegenerate at hnd
  rw [not_not] at hnd
  obtain ⟨⟨hx0a, hx0b⟩, hy0a, hy0b⟩ := hnd
  simp only [interRect] at hx0a hx0b hy0a hy0b ⊢
  unfold overlayBlendPath
  simp only [interRect]
  have hcrop : (0 ⊔ -y0).toNat +
        (((y0 + (overlay.height : ℤ)) ⊓ (base.height : ℤ)).toNat -
          (0 ⊔ y0).toNat) - (0 ⊔ -y0).toNat > 0 ∨
      (0 ⊔ -x0).toNat +
        (((x0 + (overlay.width : ℤ)) ⊓ (base.width : ℤ)).toNat -
          (0 ⊔ x0).toNat) - (0 ⊔ -x0).toNat > 0 := by omega
  rw [if_pos hcrop]
  by_cases hoc4 : overlay.channels = 4
  · rw [if_neg (not_not_intro ⟨trivial, hoc4⟩)]
    simp only [channels_blend_images, channels_sliceImage]
    by_cases hb4 : base.channels < 4
    · rw [if_pos (show base.channels < max overlay.channels base.channels
          by omega),
        if_pos (show max overlay.channels base.channels = 4 by omega)]
      constructor
      · intro hin
        simp only [writeRegion, height_blend_images, width_blend_images,
          height_sliceImage, width_sliceImage]
        rw [if_pos (by omega)]
        rw [blend_data_skip_slice overlay _ _ _ _ _ hoc4 _ _ _ hc
          (halpha hoc4 _ _ (by omega) (by omega))]
        rw [Nat.add_comm ((0 ⊔ -y0).toNat) (y - (0 ⊔ y0).toNat),
          Nat.add_comm ((0 ⊔ -x0).toNat) (x - (0 ⊔ x0).toNat)]
      · intro hout
        simp only [writeRegion, height_blend_images, width_blend_images,
          height_sliceImage, width_sliceImage]
        rw [if_neg (by omega)]
        rfl
    · rw [if_neg (show ¬base.channels < max overlay.channels base.channels
          by omega)]
      constructor
      · intro hin
        simp only [writeRegion, height_blend_images, width_blend_images,
          height_sliceImage, width_sliceImage]
        rw [if_pos (by omega)]
        rw [blend_data_skip_slice overlay _ _ _ _ _ hoc4 _ _ _ hc
          (halpha hoc4 _ _ (by omega) (by omega))]
        rw [Nat.add_comm ((0 ⊔ -y0).toNat) (y - (0 ⊔ y0).toNat),
          Nat.add_comm ((0 ⊔ -x0).toNat) (x - (0 ⊔ x0).toNat)]
      · intro hout
        simp only [writeRegion, height_blend_images, width_blend_images,
          height_sliceImage, width_sliceImage]
        rw [if_neg (by omega)]
        rw [bgraVal_self base hbc y x c (by omega)]
  · rw [if_pos (fun hcon => hoc4 hcon.2)]
    simp only [channels_blend_images, channels_scaleAlpha,
      channels_convert_to_BGRA, channels_sliceImage]
    by_cases hb4 : base.channels < 4
    · rw [if_pos (show base.channels < max 4 base.channels by omega),
        if_pos (show max 4 base.channels = 4 by omega)]
      constructor
      · intro hin
        simp only [writeRegion, height_blend_images, width_blend_images,
          height_sliceImage, width_sliceImage]
        rw [if_pos (by omega)]
        rw [blend_data_converted_slice overlay _ _ _ _ _ _ hoc4 rfl _ _ _ hc]
        rw [Nat.add_comm ((0 ⊔ -y0).toNat) (y - (0 ⊔ y0).toNat),
          Nat.add_comm ((0 ⊔ -x0).toNat) (x - (0 ⊔ x0).toNat)]
      · intro hout
        simp only [writeRegion, height_blend_images, width_blend_images,
          height_sliceImage, width_sliceImage]
        rw [if_neg (by omega)]
        rfl
    · rw [if_neg (show ¬base.channels < max 4 base.channels by omega)]
      constructor
      · intro hin
        simp only [writeRegion, height_blend_images, width_blend_images,
          height_sliceImage, width_sliceImage]
        rw [if_pos (by omega)]
        rw [blend_data_converted_slice overlay _ _ _ _ _ _ hoc4 rfl _ _ _ hc]
        rw [Nat.add_comm ((0 ⊔ -y0).toNat) (y - (0 ⊔ y0).toNat),
          Nat.add_comm ((0 ⊔ -x0).toNat) (x - (0 ⊔ x0).toNat)]
      · intro hout
        simp only [writeRegion, height_blend_images, width_blend_images,
          height_sliceImage, width_sliceImage]
        rw [if_neg (by omega)]
        rw [bgraVal_self base hbc y x c (by omega)]

theorem overlayBlendPath_channels (base overlay : Image) (opacity : ℚ)
    (x0 y0 : ℤ)
    (hbc : base.channels = 1 ∨ base.channels = 3 ∨ base.channels = 4) :
    (overlayBlendPath base overlay opacity x0 y0).channels = 4 := by
  unfold overlayBlendPath
  have hov2c : (if ¬(opacity = 100 ∧ overlay.channels = 4)
      then (4 : ℕ) else overlay.channels) = 4 := by
    split
    · rfl
    · rename_i hcc
      exact (not_not.mp hcc).2
  simp only [channels_writeRegion, apply_ite Image.channels,
    channels_convert_to_BGRA, channels_dstack_gray3, channels_blend_images,
    channels_sliceImage, channels_scaleAlpha, ite_self, hov2c]
  split_ifs <;> omega

/-- C6: with opacity 100 and a fully opaque overlay, every output pixel
inside the intersection rectangle equals the overlay's pixel at the
corresponding position and every pixel outside it equals the base's pixel,
channel-wise through the BGRA view that channel reconciliation applies;
blending is straight alpha compositing
`out = ov_rgb * a + base_rgb * (1 - a)` per the modelled
`blend_images`. -/
theorem opacity100_opaque_exact (base overlay : Image)
    (pos : OverlayPosition) (xp yp xpx ypx : ℤ) (out : Image)
    (hbc : base.channels = 1 ∨ base.channels = 3 ∨ base.channels = 4)
    (halpha : overlay.channels = 4 → ∀ y x : ℕ, y < overlay.height →
      x < overlay.width → overlay.data y x 3 = 1)
    (h : overlay_images_node base overlay 100 pos xp yp xpx ypx =
      Except.ok out) :
    ∀ y x : ℕ, y < base.height → x < base.width → ∀ c : ℕ,
      c < out.channels →
      (((nodeRect base overlay pos xp yp xpx ypx).2.2.1 ≤ (y : ℤ) ∧
        (y : ℤ) < (nodeRect base overlay pos xp yp xpx ypx).2.2.2 ∧
        (nodeRect base overlay pos xp yp xpx ypx).1 ≤ (x : ℤ) ∧
        (x : ℤ) < (nodeRect base overlay pos xp yp xpx ypx).2.1) →
          out.data y x c = bgraVal overlay overlay.channels
            (y - (nodeRect base overlay pos xp yp xpx ypx).2.2.1.toNat +
              (max 0 (-(nodeAnchor base overlay pos xp yp xpx ypx).2)).toNat)
            (x - (nodeRect base overlay pos xp yp xpx ypx).1.toNat +
              (max 0 (-(nodeAnchor base overlay pos xp yp xpx ypx).1)).toNat)
            c) ∧
      (¬((nodeRect base overlay pos xp yp xpx ypx).2.2.1 ≤ (y : ℤ) ∧
        (y : ℤ) < (nodeRect base overlay pos xp yp xpx ypx).2.2.2 ∧
        (nodeRect base overlay pos xp yp xpx ypx).1 ≤ (x : ℤ) ∧
        (x : ℤ) < (nodeRect base overlay pos xp yp xpx ypx).2.1) →
          out.data y x c = bgraVal base base.channels y x c) := by
  unfold overlay_images_node overlay_images_run at h
  simp only [] at h
  split at h
  · rename_i h100
    exact absurd h100 (by norm_num)
  · split at h
    · exact absurd h (by simp)
    · split at h
      · exact absurd h (by simp)
      · split at h
        · rename_i hdeg
          simp only [Except.ok.injEq] at h
          subst h
          intro y x hy hx c hc
          constructor
          · intro hin
            exfalso
            simp only [nodeRect, nodeAnchor, interRect] at hin
            simp only [interDegenerate, interRect] at hdeg
            omega
          · intro _
            exact (bgraVal_self base hbc y x c hc).symm
        · rename_i hdeg
          simp only [Except.ok.injEq] at h
          subst h
          intro y x hy hx c hc
          rw [overlayBlendPath_channels base overlay 100 _ _ hbc] at hc
          have hmain := overlayBlendPath_data base overlay _ _ hbc halpha
            hdeg y x hy hx c hc
          simp only [nodeRect, nodeAnchor]
          exact hmain

/-- C6 witness: an empty overlay in `TOP_LEFT` mode - the pixel (0,0) is
outside the (empty) intersection and keeps the base's value. -/
theorem opacity100_opaque_exact_witness :
    (⟨2, 2, 4, fun _ _ _ => 1⟩ : Image).data 0 0 0 =
      bgraVal ⟨2, 2, 4, fun _ _ _ => 1⟩
        (⟨2, 2, 4, fun _ _ _ => 1⟩ : Image).channels 0 0 0 :=
  (opacity100_opaque_exact ⟨2, 2, 4, fun _ _ _ => 1⟩
    ⟨0, 0, 4, fun _ _ _ => 1⟩ .TOP_LEFT 0 0 0 0
    ⟨2, 2, 4, fun _ _ _ => 1⟩ (by decide)
    (fun _ y x hy _ => absurd hy (Nat.not_lt_zero y))
    (by
      unfold overlay_images_node overlay_images_run
      rw [if_neg (by norm_num : ¬(100 : ℚ) = 0)]
      simp only []
      rw [if_neg (by simp), if_neg (by simp), if_pos (by
        simp [overlayAnchor, OVERLAY_X0_Y0_FACTORS, interRect,
          interDegenerate, truncQ])])
    0 0 (by decide) (by decide) 0 (by decide)).2
    (by
      simp [nodeRect, nodeAnchor, overlayAnchor, OVERLAY_X0_Y0_FACTORS,
        interRect, truncQ])

end ChainnerExtra
